import Mathlib

/-!
Verification of the keeto-pr-agent review-orchestration engine.

The Python source is shallowly embedded over `List Char`.  Python strings
are modelled as lists of characters; `re` searches used by the source are
embedded as explicit deterministic scanners (the patterns involved have
unique backtracking-free matches, noted at each definition).  Fallible
calls to the text-completion provider are modelled by an explicit outcome
value, and the dictionaries returned by the agents are modelled as
structures.
-/

namespace Keeto

/-- Characters matched by the regex class `\s` (ASCII range), also the set
stripped by Python `str.strip()` for the ASCII inputs considered here. -/
def isSpaceC (c : Char) : Bool :=
  c = ' ' || c = '\t' || c = '\n' || c = '\r' || c = '\x0b' || c = '\x0c'

/-- ASCII decimal digit, the regex class `\d` on ASCII input. -/
def isDigitC (c : Char) : Bool :=
  '0' ≤ c && c ≤ '9'

/-- Python `str.lower()` (ASCII). -/
def toLowerL (l : List Char) : List Char :=
  l.map Char.toLower

/-- Python `str.upper()` (ASCII). -/
def toUpperL (l : List Char) : List Char :=
  l.map Char.toUpper

/-- Whether `pat` occurs at the start of `l` (case-sensitive). -/
def startsWithL : List Char → List Char → Bool
  | [], _ => true
  | _ :: _, [] => false
  | p :: ps, c :: cs => p = c && startsWithL ps cs

/-- Python substring test `pat in hay`. -/
def containsSub (hay pat : List Char) : Bool :=
  match hay with
  | [] => startsWithL pat []
  | _ :: t => startsWithL pat hay || containsSub t pat

/-- Python `str.strip()`: remove whitespace from both ends. -/
def stripL (l : List Char) : List Char :=
  ((l.dropWhile isSpaceC).reverse.dropWhile isSpaceC).reverse

/-- Python `text.split('\n')`. -/
def splitOnNL : List Char → List (List Char)
  | [] => [[]]
  | c :: rest =>
    if c = '\n' then [] :: splitOnNL rest
    else
      match splitOnNL rest with
      | [] => [[c]]
      | l :: ls => (c :: l) :: ls

/-- Case-insensitive literal match: consume `pat` (case-insensitively) from
the front of the input, returning the remainder. -/
def dropCaseLit : List Char → List Char → Option (List Char)
  | [], l => some l
  | _ :: _, [] => none
  | p :: ps, c :: cs => if c.toLower = p.toLower then dropCaseLit ps cs else none

/-- Case-sensitive literal match, returning the remainder. -/
def dropLit : List Char → List Char → Option (List Char)
  | [], l => some l
  | _ :: _, [] => none
  | p :: ps, c :: cs => if c = p then dropLit ps cs else none

/-!
Section extraction.  `_parse_analysis` locates each section with
`re.search(r'##\s*<Name>\s*\n(.*?)(?=##|\Z)', text, DOTALL | IGNORECASE)`
and takes `group(1).strip()`.  The pattern has a deterministic match: after
the literal `##`, `\s*` must stop exactly at the first character of the
name (the name starts with a letter), and `\s*\n` succeeds exactly when the
maximal whitespace run after the name contains a newline.  The lazy body
group runs to the first following `##` or to the end of text.  The regex
leaves the part of the whitespace run after its last newline inside the
body group, but that part is whitespace and is removed by the `strip()`
applied to the group, so dropping the whole run is equivalent.
-/

/-- Match one heading occurrence at the start of `l`: literal `##`, a
whitespace run, the section name case-insensitively, then a whitespace run
containing a newline; returns the text following that run. -/
def headingAt (name l : List Char) : Option (List Char) :=
  match l with
  | '#' :: '#' :: rest =>
    match dropCaseLit name (rest.dropWhile isSpaceC) with
    | none => none
    | some rest2 =>
      if (rest2.takeWhile isSpaceC).contains '\n' then
        some (rest2.dropWhile isSpaceC)
      else none
  | _ => none

/-- Leftmost heading match: `re.search` tries each start position in turn. -/
def findSection (name : List Char) : List Char → Option (List Char)
  | [] => none
  | c :: cs =>
    match headingAt name (c :: cs) with
    | some rest => some rest
    | none => findSection name cs

/-- The lazy body group: everything up to the next `##` or end of text. -/
def takeUntilHH : List Char → List Char
  | [] => []
  | '#' :: '#' :: _ => []
  | c :: cs => c :: takeUntilHH cs

/-- One section of `_parse_analysis`: the stripped body of the leftmost
heading match, or the empty string when the heading is absent. -/
def extractSection (name text : List Char) : List Char :=
  match findSection name text with
  | some rest => stripL (takeUntilHH rest)
  | none => []

/-!
Issue parsing (`LangChainReviewAgent._parse_issues`, `_parse_list_items`,
`_determine_severity`).
-/

/-- The severity vocabulary of the per-issue marker regex
`\[?(CRITICAL|HIGH|MEDIUM|LOW|INFO)\]?` and of `severity_order` in
`_determine_severity`, in source order. -/
def severityOrder : List (List Char) :=
  ["CRITICAL".data, "HIGH".data, "MEDIUM".data, "LOW".data, "INFO".data]

/-- The severity-marker search on one line: leftmost case-insensitive
occurrence of one of the five vocabulary words (the optional brackets in
the regex do not constrain the match).  The five words have pairwise
distinct initial letters, so at most one alternative matches at any
position and the alternation order is immaterial. -/
def findSeverityTok : List Char → Option (List Char)
  | [] => none
  | c :: cs =>
    match severityOrder.findSome? (fun name =>
        if (dropCaseLit name (c :: cs)).isSome then some name else none) with
    | some name => some name
    | none => findSeverityTok cs

/-- The new-issue test `re.match(r'^[-*•]\s+', line) or
`re.match(r'^\d+\.\s+', line)`. -/
def bulletMatch (l : List Char) : Bool :=
  (match l with
   | c :: d :: _ => (c = '-' || c = '*' || c = '•') && isSpaceC d
   | _ => false)
  ||
  (l.takeWhile isDigitC ≠ [] &&
    (match l.dropWhile isDigitC with
     | '.' :: d :: _ => isSpaceC d
     | _ => false))

/-- The list-marker stripper `re.sub(r'^[-*•\d.]\s+', '', line)`: one
character from the class followed by at least one whitespace character,
anchored at the start, is removed together with the whitespace run. -/
def stripMarker (l : List Char) : List Char :=
  match l with
  | [] => []
  | c :: rest =>
    if (c = '-' || c = '*' || c = '•' || isDigitC c || c = '.') &&
        rest.takeWhile isSpaceC ≠ [] then
      rest.dropWhile isSpaceC
    else l

/-- One issue extracted from the `Issues Found` section. -/
structure Issue where
  description : List Char
  severity : List Char
deriving Repr, DecidableEq

/-- The loop body of `_parse_issues`: the head of `acc` is the
`current_issue`, continuation lines are appended to its description with a
separating space; the final list is reversed back to emission order. -/
def parseIssuesAux : List (List Char) → List Issue → List Issue
  | [], acc => acc.reverse
  | line :: rest, acc =>
    let l := stripL line
    if l = [] then parseIssuesAux rest acc
    else if bulletMatch l then
      let sev := match findSeverityTok l with
        | some s => s
        | none => "MEDIUM".data
      parseIssuesAux rest ({ description := stripMarker l, severity := sev } :: acc)
    else
      match acc with
      | cur :: others =>
        parseIssuesAux rest
          ({ cur with description := cur.description ++ ' ' :: l } :: others)
      | [] => parseIssuesAux rest acc

/-- `LangChainReviewAgent._parse_issues`. -/
def parseIssues (text : List Char) : List Issue :=
  parseIssuesAux (splitOnNL text) []

/-- `LangChainReviewAgent._parse_list_items`. -/
def parseListItems (text : List Char) : List (List Char) :=
  (splitOnNL text).filterMap (fun line =>
    let l := stripL line
    if l = [] then none
    else
      let l2 := stripMarker l
      if l2 = [] then none else some l2)

/-- `LangChainReviewAgent._determine_severity`: `"none"` for an empty
issue list, otherwise the first vocabulary word (in `severityOrder`) borne
by some issue, lowercased; `"low"` if no issue bears a vocabulary word. -/
def determineSeverity (issues : List Issue) : List Char :=
  if issues = [] then "none".data
  else
    match severityOrder.find? (fun s => issues.any (fun i => i.severity = s)) with
    | some s => toLowerL s
    | none => "low".data

/-!
`LangChainReviewAgent._parse_analysis` and `analyze`.
-/

/-- The structured result dictionary produced by a LangChain agent. -/
structure AnalysisResult where
  agent : List Char
  file : List Char
  analysis : List Char
  thinkingProcess : List Char
  issues : List Issue
  recommendations : List (List Char)
  positiveObservations : List (List Char)
  hasIssues : Bool
  severity : List Char
  error : Option (List Char) := none
deriving Repr, DecidableEq

/-- The four section names recognized by `_parse_analysis`. -/
def sectionNames : List (List Char) :=
  ["Thinking Process".data, "Issues Found".data,
   "Recommendations".data, "Positive Observations".data]

/-- `LangChainReviewAgent._parse_analysis`. -/
def parseAnalysis (agentType analysisText filename : List Char) : AnalysisResult :=
  let thinking := extractSection ("Thinking Process".data) analysisText
  let issuesText := extractSection ("Issues Found".data) analysisText
  let recommendationsText := extractSection ("Recommendations".data) analysisText
  let positiveText := extractSection ("Positive Observations".data) analysisText
  let issues := parseIssues issuesText
  { agent := agentType
    file := filename
    analysis := analysisText
    thinkingProcess := thinking
    issues := issues
    recommendations := parseListItems recommendationsText
    positiveObservations := parseListItems positiveText
    hasIssues := decide (issues.length > 0)
    severity := determineSeverity issues }

/-- Outcome of one call to the text-completion provider (the awaited
`chain.ainvoke`): either the raw completion text, or a raised exception
carrying a message. -/
inductive LLMOutcome where
  | ok (text : List Char)
  | err (msg : List Char)
deriving Repr, DecidableEq

/-- The slice of `file_data` read by `analyze`: `patch` is `none` when the
key is absent; the Python truthiness test also treats an empty patch as
absent. -/
structure FileData where
  filename : List Char
  patch : Option (List Char)
deriving Repr, DecidableEq

/-- The guard `if not file_data.get("patch")`. -/
def hasPatch (fd : FileData) : Bool :=
  match fd.patch with
  | none => false
  | some p => p ≠ []

/-- The early return of `analyze` for an empty or missing patch. -/
def emptyPatchResult (agentType : List Char) (fd : FileData) : AnalysisResult :=
  { agent := agentType
    file := fd.filename
    analysis := "No code changes to review".data
    thinkingProcess := []
    issues := []
    recommendations := []
    positiveObservations := []
    hasIssues := false
    severity := "none".data }

/-- The `except` branch of `analyze`: the error is reported inside the
result value, never re-raised. -/
def errorResult (agentType : List Char) (fd : FileData) (e : List Char) : AnalysisResult :=
  { agent := agentType
    file := fd.filename
    analysis := "Error during analysis: ".data ++ e
    thinkingProcess := []
    issues := []
    recommendations := []
    positiveObservations := []
    hasIssues := false
    severity := "none".data
    error := some e }

/-- `LangChainReviewAgent.analyze`, with the completion call modelled by
its outcome.  The function is total: every path returns a result value. -/
def analyze (agentType : List Char) (fd : FileData) (llm : LLMOutcome) : AnalysisResult :=
  if !hasPatch fd then emptyPatchResult agentType fd
  else
    match llm with
    | .ok text => parseAnalysis agentType text fd.filename
    | .err e => errorResult agentType fd e

/-!
Skip policy and review run of `EnhancedAgentOrchestrator`.
-/

/-- Whether `pat` occurs at the end of `l` (Python `str.endswith`). -/
def endsWithL (hay pat : List Char) : Bool :=
  startsWithL pat.reverse hay.reverse

/-- The `skip_extensions` set of `EnhancedAgentOrchestrator._should_skip_file`
(a Python set literal: its iteration order is arbitrary). -/
def skipExtensions : List (List Char) :=
  [".json".data, ".lock".data, ".md".data, ".txt".data, ".yml".data, ".yaml".data,
   ".gitignore".data, ".env".data, ".png".data, ".jpg".data, ".gif".data, ".svg".data,
   ".ico".data, ".pdf".data, ".woff".data, ".woff2".data, ".ttf".data, ".eot".data]

/-- The `skip_patterns` list of `EnhancedAgentOrchestrator._should_skip_file`. -/
def skipPatterns : List (List Char) :=
  ["package-lock.json".data, "yarn.lock".data, "poetry.lock".data, "Pipfile.lock".data,
   "requirements.txt".data, "node_modules/".data, ".min.js".data, ".min.css".data]

/-- The two loops of `_should_skip_file` over given deny-lists: lowercase
the filename, return true on the first extension suffix match or the first
pattern substring match. -/
def shouldSkipFileWith (exts pats : List (List Char)) (filename : List Char) : Bool :=
  let fl := toLowerL filename
  exts.any (fun e => endsWithL fl e) || pats.any (fun p => containsSub fl p)

/-- `EnhancedAgentOrchestrator._should_skip_file`. -/
def shouldSkipFile (filename : List Char) : Bool :=
  shouldSkipFileWith skipExtensions skipPatterns filename

/-- The agent table of `EnhancedAgentOrchestrator.__init__`, in insertion
order: dictionary key and the agent_type string each agent passes to
`analyze`. -/
def enhancedAgents : List (List Char × List Char) :=
  [("logic".data, "Logic & Correctness".data),
   ("readability".data, "Readability & Maintainability".data),
   ("performance".data, "Performance".data),
   ("security".data, "Security".data)]

/-- The slice of the result dictionary of `review_pr` relevant here. -/
structure Report where
  status : List Char
  filesReviewed : Nat
  totalFindings : Nat
  findings : List AnalysisResult
deriving Repr, DecidableEq

/-- `EnhancedAgentOrchestrator.review_pr` after a successful fetch of the
PR file list, with each (agent, file) completion call modelled by the
oracle `llm`.  `analyze` is total and `asyncio.gather` is called with
`return_exceptions=True`, so no agent outcome can raise past this point;
both return paths carry status `"success"`. -/
def reviewPr (prFiles : List FileData) (llm : List Char → List Char → LLMOutcome) : Report :=
  let toReview := prFiles.filter (fun f => !shouldSkipFile f.filename)
  if toReview = [] then
    { status := "success".data, filesReviewed := 0, totalFindings := 0, findings := [] }
  else
    let findings := toReview.flatMap (fun fd =>
      enhancedAgents.map (fun a => analyze a.2 fd (llm a.1 fd.filename)))
    { status := "success".data
      filesReviewed := toReview.length
      totalFindings := (findings.filter (fun r => r.hasIssues)).length
      findings := findings }

/-!
Whole-text severity classifier (`BaseReviewAgent._determine_severity` in
`agent.py`).
-/

/-- The `"critical"` keyword list of `BaseReviewAgent.__init__`. -/
def criticalKeywords : List (List Char) :=
  ["crash".data, "exploit".data, "vulnerability".data, "sql injection".data,
   "xss".data, "authentication bypass".data]

/-- The `"high"` keyword list of `BaseReviewAgent.__init__`. -/
def highKeywords : List (List Char) :=
  ["bug".data, "error".data, "incorrect".data, "security risk".data,
   "memory leak".data]

/-- The `"medium"` keyword list of `BaseReviewAgent.__init__`. -/
def mediumKeywords : List (List Char) :=
  ["inefficient".data, "suboptimal".data, "should".data, "consider".data]

/-- The `"low"` keyword list of `BaseReviewAgent.__init__`. -/
def lowKeywords : List (List Char) :=
  ["style".data, "naming".data, "comment".data, "documentation".data]

/-- The `severity_keywords` table of `BaseReviewAgent.__init__`, in the
scan order of `_determine_severity`. -/
def severityKeywords : List (List Char × List (List Char)) :=
  [("critical".data, criticalKeywords),
   ("high".data, highKeywords),
   ("medium".data, mediumKeywords),
   ("low".data, lowKeywords)]

/-- `BaseReviewAgent._determine_severity`: lowercase the text, scan the
keyword table in order critical, high, medium, low and return the first
severity one of whose keywords occurs; `"info"` when none occurs. -/
def classifySeverity (findings : List Char) : List Char :=
  let fl := toLowerL findings
  match severityKeywords.find? (fun p => p.2.any (fun kw => containsSub fl kw)) with
  | some p => p.1
  | none => "info".data

/-- Numeric rank of the lowercase severity vocabulary, following the total
order critical > high > medium > low > info of the glossary. -/
def sevRank (s : List Char) : Nat :=
  if s = "critical".data then 5
  else if s = "high".data then 4
  else if s = "medium".data then 3
  else if s = "low".data then 2
  else if s = "info".data then 1
  else 0

/-!
Legacy whole-blob analysis (`OpenRouterService.analyze_code`).
-/

/-- The result dictionary of `OpenRouterService.analyze_code`. -/
structure CodeAnalysis where
  analysisType : List Char
  filePath : List Char
  findings : List Char
  hasIssues : Bool
  error : Option (List Char) := none
deriving Repr, DecidableEq

/-- `OpenRouterService.analyze_code` with the completion call modelled by
its outcome: on success `has_issues` is the absence of the phrase
`"no issues found"` from the lowercased response; on failure the error is
embedded and `has_issues` is false. -/
def analyzeCode (analysisType filePath : List Char) (llm : LLMOutcome) : CodeAnalysis :=
  match llm with
  | .ok response =>
    { analysisType := analysisType
      filePath := filePath
      findings := response
      hasIssues := !containsSub (toLowerL response) ("no issues found".data) }
  | .err e =>
    { analysisType := analysisType
      filePath := filePath
      findings := "Analysis failed: ".data ++ e
      hasIssues := false
      error := some e }

/-!
Summary rendering (`EnhancedAgentOrchestrator._generate_detailed_summary`).
The function builds a list `summary_parts` of lines and joins it with
newlines; each block of appends below is embedded as one list-valued
helper, composed in source order.
-/

/-- The PR metadata read by the summary renderer. -/
structure PRDetails where
  number : Nat
  title : String
  author : String
  baseBranch : Option String
  headBranch : Option String
  changedFiles : Nat
  additions : Nat
  deletions : Nat
deriving Repr, DecidableEq

/-- The fixed header lines, with the optional custom-instructions block. -/
def renderHeader (pr : PRDetails) (customInstructions : String) : List String :=
  ["# AI Code Review - Deep Analysis Report", "",
   "**PR #" ++ toString pr.number ++ ": " ++ pr.title ++ "**",
   "**Repository**: " ++ pr.baseBranch.getD "main" ++ " ← " ++ pr.headBranch.getD "feature",
   "**Author**: " ++ pr.author, "",
   "**Changes Summary:**",
   "- Files changed: " ++ toString pr.changedFiles,
   "- Lines added: " ++ toString pr.additions,
   "- Lines removed: " ++ toString pr.deletions, ""]
  ++ (if customInstructions ≠ "" then
        ["**Custom Review Instructions:**", "> " ++ customInstructions, ""]
      else [])

/-- The all-clear block used when no finding has issues. -/
def allClearBlock : List String :=
  ["---", "", "## All Clear", "",
   "All automated agents have analyzed the code and found no significant issues.",
   "The changes appear to be well-implemented across all review dimensions:", "",
   "- Logic & Correctness: No issues detected",
   "- Security: No vulnerabilities found",
   "- Performance: No concerns identified",
   "- Readability: Code meets quality standards", ""]

/-- Insertion-ordered deduplication, as performed by building a Python
dict keyed by file. -/
def dedupAux : List (List Char) → List (List Char) → List (List Char)
  | [], _ => []
  | k :: rest, seen =>
    if seen.contains k then dedupAux rest seen
    else k :: dedupAux rest (k :: seen)

/-- The files of the findings, in first-occurrence order. -/
def fileKeys (fs : List AnalysisResult) : List (List Char) :=
  dedupAux (fs.map (fun f => f.file)) []

/-- The `by_file` grouping: keys in first-occurrence order, each with its
findings in arrival order. -/
def groupByFile (fs : List AnalysisResult) : List (List Char × List AnalysisResult) :=
  (fileKeys fs).map (fun k => (k, fs.filter (fun f => f.file = k)))

/-- Count of results with a given severity among the given findings. -/
def sevCount (fs : List AnalysisResult) (s : String) : Nat :=
  (fs.filter (fun f => f.severity = s.data)).length

/-- The findings-overview block, including the conditional per-severity
count lines (the `none` and `info` tallies are never rendered). -/
def renderOverview (fw : List AnalysisResult) : List String :=
  ["---", "", "## Findings Overview", "",
   "**Total Issues Found**: " ++ toString fw.length ++ " across " ++
     toString (fileKeys fw).length ++ " files", ""]
  ++ (if sevCount fw "critical" > 0 then ["- Critical: " ++ toString (sevCount fw "critical")] else [])
  ++ (if sevCount fw "high" > 0 then ["- High: " ++ toString (sevCount fw "high")] else [])
  ++ (if sevCount fw "medium" > 0 then ["- Medium: " ++ toString (sevCount fw "medium")] else [])
  ++ (if sevCount fw "low" > 0 then ["- Low: " ++ toString (sevCount fw "low")] else [])
  ++ ["", "---", ""]

/-- The truncated thinking-process block of one finding. -/
def renderThinkingBlock (thinking : List Char) : List String :=
  if thinking = [] then []
  else
    ["**Agent's Thinking Process:**", "",
     String.mk (thinking.take 500) ++ (if thinking.length > 500 then "..." else ""),
     ""]

/-- One rendered issue line `- [SEV] description`. -/
def issueLine (i : Issue) : String :=
  "- [" ++ String.mk i.severity ++ "] " ++ String.mk i.description

/-- The issues block of one finding: at most the first five issues, then a
count of the remainder when more than five exist. -/
def renderIssuesBlock (issues : List Issue) : List String :=
  if issues = [] then []
  else
    ["**Issues Identified:**", ""]
    ++ (issues.take 5).map issueLine
    ++ (if issues.length > 5 then
          ["- ...and " ++ toString (issues.length - 5) ++ " more"]
        else [])
    ++ [""]

/-- The recommendations block of one finding: at most the first three,
then a count of the remainder when more than three exist. -/
def renderRecsBlock (recs : List (List Char)) : List String :=
  if recs = [] then []
  else
    ["**Recommendations:**", ""]
    ++ (recs.take 3).map (fun r => "- " ++ String.mk r)
    ++ (if recs.length > 3 then
          ["- ...and " ++ toString (recs.length - 3) ++ " more"]
        else [])
    ++ [""]

/-- The block rendered for one finding.  Every value of the source's
`agent_emojis` table is the empty string, and so is its lookup default,
hence the doubled space after `###`. -/
def renderFindingBlock (finding : AnalysisResult) : List String :=
  ["### " ++ "" ++ " " ++ String.mk finding.agent ++ " - [" ++
     String.mk (toUpperL finding.severity) ++ "]", ""]
  ++ renderThinkingBlock finding.thinkingProcess
  ++ renderIssuesBlock finding.issues
  ++ renderRecsBlock finding.recommendations
  ++ ["---", ""]

/-- The block rendered for one file group. -/
def renderFileGroup (filePath : List Char) (fs : List AnalysisResult) : List String :=
  ["## File: `" ++ String.mk filePath ++ "`", ""]
  ++ fs.flatMap renderFindingBlock

/-- The trailing positive-observations section: at most the first five of
the concatenated observations, rendered verbatim. -/
def renderPositiveSection (allPositive : List (List Char)) : List String :=
  if allPositive = [] then []
  else
    ["## Positive Observations", "",
     "Good practices identified by the review agents:", ""]
    ++ (allPositive.take 5).map (fun obs => "- " ++ String.mk obs)
    ++ ["", "---", ""]

/-- `EnhancedAgentOrchestrator._generate_detailed_summary`. -/
def generateDetailedSummary (findings : List AnalysisResult) (pr : PRDetails)
    (customInstructions : String) : String :=
  let findingsWithIssues := findings.filter (fun f => f.hasIssues)
  let body :=
    if findingsWithIssues = [] then allClearBlock
    else
      renderOverview findingsWithIssues
      ++ (groupByFile findingsWithIssues).flatMap (fun g => renderFileGroup g.1 g.2)
  let allPositive := findings.flatMap (fun f => f.positiveObservations)
  String.intercalate "\n"
    (renderHeader pr customInstructions ++ body ++ renderPositiveSection allPositive
      ++ ["", "---", "*Generated by AI PR Review Agent with LangChain-powered critical thinking*"])

/-!
Reference normalization (`GitHubUrlParser.parse`).
-/

/-- The parsed reference (`ParsedPRUrl` pydantic model). -/
structure ParsedPRUrl where
  owner : List Char
  repo : List Char
  prNumber : Nat
  url : List Char
deriving Repr, DecidableEq

/-- The two `ValueError` sites of `GitHubUrlParser.parse`, with their
messages. -/
inductive RefError where
  | bareNumber (msg : List Char)
  | unparseable (msg : List Char)
deriving Repr, DecidableEq

/-- Python `int()` on a digit string. -/
def digitsToNat (l : List Char) : Nat :=
  l.foldl (fun n c => n * 10 + (c.toNat - '0'.toNat)) 0

/-- Match the shared core `github\.com/([^/]+)/([^/]+)/pull/(\d+)` at the
start of `l`, returning the three groups and the remainder after the
digits.  Each `[^/]+` group must be the maximal run of non-slash
characters before a slash and `\d+` the maximal digit run, so the match is
deterministic. -/
def matchGithubCore (l : List Char) :
    Option (List Char × List Char × List Char × List Char) :=
  match dropLit "github.com/".data l with
  | none => none
  | some r =>
    let owner := r.takeWhile (fun c => c ≠ '/')
    if owner = [] then none else
    match r.dropWhile (fun c => c ≠ '/') with
    | '/' :: r2 =>
      let repo := r2.takeWhile (fun c => c ≠ '/')
      if repo = [] then none else
      match r2.dropWhile (fun c => c ≠ '/') with
      | '/' :: r3 =>
        match dropLit "pull/".data r3 with
        | none => none
        | some r4 =>
          let num := r4.takeWhile isDigitC
          if num = [] then none
          else some (owner, repo, num, r4.dropWhile isDigitC)
      | _ => none
    | _ => none

/-- Match `https?://` at the start of `l`: the optional `s` is taken when
the following text still matches `://`. -/
def dropScheme (l : List Char) : Option (List Char) :=
  match dropLit "http".data l with
  | none => none
  | some r =>
    match dropLit "s://".data r with
    | some r2 => some r2
    | none => dropLit "://".data r

/-- PATTERNS[0]: scheme plus core. -/
def pattern1At (l : List Char) : Option (List Char × List Char × List Char) :=
  match dropScheme l with
  | none => none
  | some r =>
    match matchGithubCore r with
    | some (o, rp, n, _) => some (o, rp, n)
    | none => none

/-- PATTERNS[1]: scheme plus core plus a trailing slash. -/
def pattern2At (l : List Char) : Option (List Char × List Char × List Char) :=
  match dropScheme l with
  | none => none
  | some r =>
    match matchGithubCore r with
    | some (o, rp, n, '/' :: _) => some (o, rp, n)
    | _ => none

/-- PATTERNS[2]: scheme plus core plus a character of `[#?]`. -/
def pattern3At (l : List Char) : Option (List Char × List Char × List Char) :=
  match dropScheme l with
  | none => none
  | some r =>
    match matchGithubCore r with
    | some (o, rp, n, c :: _) => if c = '#' || c = '?' then some (o, rp, n) else none
    | _ => none

/-- PATTERNS[3]: the bare core without scheme. -/
def pattern4At (l : List Char) : Option (List Char × List Char × List Char) :=
  match matchGithubCore l with
  | some (o, rp, n, _) => some (o, rp, n)
  | none => none

/-- `re.search`: try the pattern at every start position, leftmost first. -/
def searchPat (f : List Char → Option (List Char × List Char × List Char)) :
    List Char → Option (List Char × List Char × List Char)
  | [] => f []
  | c :: cs =>
    match f (c :: cs) with
    | some x => some x
    | none => searchPat f cs

/-- The `for pattern in cls.PATTERNS` loop: first matching pattern wins. -/
def searchUrlPatterns (s : List Char) : Option (List Char × List Char × List Char) :=
  match searchPat pattern1At s with
  | some x => some x
  | none =>
    match searchPat pattern2At s with
    | some x => some x
    | none =>
      match searchPat pattern3At s with
      | some x => some x
      | none => searchPat pattern4At s

/-- Match the short form `^([^/\s]+)/([^/\s]+)[/#](\d+)$`.  The first
group must stop at the first slash; the end anchor forces the digit group
to be a suffix, and its maximality under backtracking places the separator
immediately before the maximal digit suffix. -/
def matchShort (l : List Char) : Option (List Char × List Char × List Char) :=
  let g1 := l.takeWhile (fun c => !(c = '/' || isSpaceC c))
  if g1 = [] then none else
  match l.dropWhile (fun c => !(c = '/' || isSpaceC c)) with
  | '/' :: r2 =>
    let ds := (r2.reverse.takeWhile isDigitC).reverse
    let pre := (r2.reverse.dropWhile isDigitC).reverse
    if ds = [] then none else
    match pre.getLast? with
    | some sep =>
      if sep = '/' || sep = '#' then
        let g2 := pre.dropLast
        if g2 ≠ [] && g2.all (fun c => !(c = '/' || isSpaceC c)) then
          some (g1, g2, ds)
        else none
      else none
    | none => none
  | _ => none

/-- The message of the bare-number `ValueError`. -/
def bareNumberMsg : List Char :=
  ("Please provide the full GitHub PR URL (e.g., https://github.com/owner/repo/pull/123) or use format 'owner/repo/123'").data

/-- The message of the generic `ValueError`. -/
def unparseableMsg (s : List Char) : List Char :=
  "Could not parse PR URL: '".data ++ s ++
    "'. Expected format: https://github.com/owner/repo/pull/123 or owner/repo/123".data

/-- `GitHubUrlParser.parse`. -/
def ghParse (input : List Char) : Except RefError ParsedPRUrl :=
  let s := stripL input
  match searchUrlPatterns s with
  | some (o, r, n) => .ok ⟨o, r, digitsToNat n, s⟩
  | none =>
    match matchShort s with
    | some (o, r, n) =>
      .ok ⟨o, r, digitsToNat n,
        "https://github.com/".data ++ o ++ "/".data ++ r ++ "/pull/".data ++ n⟩
    | none =>
      if s ≠ [] && s.all isDigitC then .error (.bareNumber bareNumberMsg)
      else .error (.unparseable (unparseableMsg s))

/-!
Concrete inputs used by the theorems and their witnesses below.
-/

/-- The raw completion text of end-to-end scenario A. -/
def scenarioAText : String :=
  "## Issues Found\n- [HIGH] missing null check\n## Recommendations\n- add guard clause"

/-- A completion text with no recognizable heading. -/
def noHeadingText : String :=
  "The change renames a variable and updates a docstring.\nNothing else."

/-- A file with a non-empty patch, for the failure-isolation witness. -/
def fdW : FileData :=
  { filename := "app.py".data, patch := some "@@ -1,2 +1,2 @@".data }

/-- A completion oracle on which every agent call fails. -/
def llmAllFail : List Char → List Char → LLMOutcome :=
  fun _ _ => .err "Request timed out".data

/-- A text containing both a high keyword (`bug`) and a low keyword
(`style`). -/
def mixedKeywordText : String :=
  "There is a bug in the loop, and the style of naming is odd."

/-- A text containing no classifier keyword at all. -/
def cleanText : String := "all good"

/-- A HIGH-severity issue, the top-ranked one of `mixedIssues`. -/
def issueHigh : Issue := { description := "b".data, severity := "HIGH".data }

/-- An issue list whose severities span three ranks. -/
def mixedIssues : List Issue :=
  [{ description := "a".data, severity := "LOW".data },
   issueHigh,
   { description := "c".data, severity := "MEDIUM".data }]

/-- Six issues, to exercise the five-issue display cap. -/
def sixIssues : List Issue :=
  [{ description := "i1".data, severity := "HIGH".data },
   { description := "i2".data, severity := "HIGH".data },
   { description := "i3".data, severity := "MEDIUM".data },
   { description := "i4".data, severity := "MEDIUM".data },
   { description := "i5".data, severity := "LOW".data },
   { description := "i6".data, severity := "LOW".data }]

/-- Four recommendations, to exercise the three-recommendation cap. -/
def fourRecs : List (List Char) :=
  ["r1".data, "r2".data, "r3".data, "r4".data]

/-- Six positive observations with a duplicate among the first five. -/
def dupObservations : List (List Char) :=
  ["good naming".data, "good naming".data, "solid tests".data,
   "clear docs".data, "good structure".data, "nice types".data]

/-- The extraction result for scenario A. -/
def scenarioAResult : AnalysisResult :=
  parseAnalysis "Logic & Correctness".data scenarioAText.data "example.py".data

/-!
Theorems.
-/

/-- C1: for the raw text of scenario A, extraction returns exactly one
issue, carrying the HIGH severity marker and a description containing
"missing null check"; the recommendations list is exactly
["add guard clause"], hasIssues is true and the overall severity is
"high". -/
theorem scenarioA_extraction :
    scenarioAResult.issues =
      [{ description := "[HIGH] missing null check".data, severity := "HIGH".data }] ∧
    scenarioAResult.issues.all
      (fun i => containsSub i.description "missing null check".data) = true ∧
    scenarioAResult.issues.all
      (fun i => toLowerL i.severity = "high".data) = true ∧
    scenarioAResult.recommendations = ["add guard clause".data] ∧
    scenarioAResult.hasIssues = true ∧
    scenarioAResult.severity = "high".data := by
  decide

/-- C9: the full URL (bare, with trailing slash, fragment or query), the
slash short form and the hash short form all normalize to owner "a",
repo "b", PR number 42, while a bare number is rejected with the
dedicated error message that asks for the owner/repo parts. -/
theorem reference_parsing_normalization :
    ghParse "https://github.com/a/b/pull/42".data =
      .ok { owner := "a".data, repo := "b".data, prNumber := 42,
            url := "https://github.com/a/b/pull/42".data } ∧
    ghParse "https://github.com/a/b/pull/42/".data =
      .ok { owner := "a".data, repo := "b".data, prNumber := 42,
            url := "https://github.com/a/b/pull/42/".data } ∧
    ghParse "https://github.com/a/b/pull/42#issuecomment-7".data =
      .ok { owner := "a".data, repo := "b".data, prNumber := 42,
            url := "https://github.com/a/b/pull/42#issuecomment-7".data } ∧
    ghParse "https://github.com/a/b/pull/42?diff=split".data =
      .ok { owner := "a".data, repo := "b".data, prNumber := 42,
            url := "https://github.com/a/b/pull/42?diff=split".data } ∧
    ghParse "a/b/42".data =
      .ok { owner := "a".data, repo := "b".data, prNumber := 42,
            url := "https://github.com/a/b/pull/42".data } ∧
    ghParse "a/b#42".data =
      .ok { owner := "a".data, repo := "b".data, prNumber := 42,
            url := "https://github.com/a/b/pull/42".data } ∧
    ghParse "42".data = .error (.bareNumber bareNumberMsg) ∧
    containsSub bareNumberMsg "owner/repo".data = true :=
  ⟨rfl, rfl, rfl, rfl, rfl, rfl, rfl, rfl⟩

/-- C10: in the legacy whole-blob path, has_issues is true exactly when
the lowercased response lacks the phrase "no issues found"; a response
that lists issues but contains the phrase reports false, and an ordinary
response without the phrase reports true. -/
theorem legacy_has_issues_phrase (analysisType filePath response : List Char) :
    ((analyzeCode analysisType filePath (.ok response)).hasIssues = true ↔
      containsSub (toLowerL response) "no issues found".data = false) ∧
    (analyzeCode analysisType filePath
      (.ok "1. [HIGH] SQL injection in the query builder. Summary: no issues found elsewhere.".data)).hasIssues
      = false ∧
    (analyzeCode analysisType filePath
      (.ok "The diff only renames a local variable.".data)).hasIssues = true := by
  refine ⟨?_, rfl, rfl⟩
  simp [analyzeCode, Bool.not_eq_true']

/-- A non-empty issue list never resolves to overall severity "none", and
the empty list always does. -/
theorem determineSeverity_eq_none_iff (issues : List Issue) :
    determineSeverity issues = "none".data ↔ issues = [] := by
  cases issues with
  | nil => simp [determineSeverity]
  | cons x xs =>
    simp only [determineSeverity]
    rw [if_neg (by simp)]
    constructor
    · intro h
      exfalso
      cases hf : severityOrder.find? (fun s => (x :: xs).any (fun i => i.severity = s)) with
      | some s =>
        rw [hf] at h
        have hs : s ∈ severityOrder := List.mem_of_find?_eq_some hf
        simp only [severityOrder, List.mem_cons, List.not_mem_nil, or_false] at hs
        rcases hs with h1 | h1 | h1 | h1 | h1 <;> subst h1 <;> exact absurd h (by decide)
      | none =>
        rw [hf] at h
        exact absurd h (by decide)
    · intro h
      exact absurd h (by simp)

/-- C2: for every analysis result produced by an agent run — successful
extraction, the empty-patch short-circuit, or a failed completion call —
the overall severity is "none" exactly when the issue list is empty. -/
theorem severity_none_iff_no_issues (agentType : List Char) (fd : FileData) (llm : LLMOutcome) :
    (analyze agentType fd llm).severity = "none".data ↔
      (analyze agentType fd llm).issues = [] := by
  cases hp : hasPatch fd with
  | false => simp [analyze, hp, emptyPatchResult]
  | true =>
    cases llm with
    | ok text =>
      simp only [analyze, hp, Bool.not_true, Bool.false_eq_true, if_false]
      simp only [parseAnalysis]
      exact determineSeverity_eq_none_iff _
    | err e => simp [analyze, hp, errorResult]

/-- When the heading search fails, the section is the empty string. -/
theorem extractSection_of_none (name text : List Char)
    (h : findSection name text = none) : extractSection name text = [] := by
  simp [extractSection, h]

/-- C4: a completion text containing none of the four recognized section
headings extracts to the fully degraded result: all four section fields
empty, an empty issue list and hasIssues false.  Extraction is a total
function of the text, so no input can make it fail. -/
theorem no_heading_extraction_degrades (agentType text filename : List Char)
    (h : ∀ name ∈ sectionNames, findSection name text = none) :
    parseAnalysis agentType text filename =
      { agent := agentType, file := filename, analysis := text,
        thinkingProcess := [], issues := [], recommendations := [],
        positiveObservations := [], hasIssues := false,
        severity := "none".data } := by
  have h1 := extractSection_of_none _ text (h ("Thinking Process".data) (by simp [sectionNames]))
  have h2 := extractSection_of_none _ text (h ("Issues Found".data) (by simp [sectionNames]))
  have h3 := extractSection_of_none _ text (h ("Recommendations".data) (by simp [sectionNames]))
  have h4 := extractSection_of_none _ text (h ("Positive Observations".data) (by simp [sectionNames]))
  simp only [parseAnalysis, h1, h2, h3, h4]
  rfl

/-- Witness for C4 at a concrete heading-free text. -/
theorem no_heading_extraction_degrades_witness :
    (∀ name ∈ sectionNames, findSection name noHeadingText.data = none) ∧
    parseAnalysis "Security".data noHeadingText.data "a.py".data =
      { agent := "Security".data, file := "a.py".data, analysis := noHeadingText.data,
        thinkingProcess := [], issues := [], recommendations := [],
        positiveObservations := [], hasIssues := false,
        severity := "none".data } :=
  ⟨by decide,
   no_heading_extraction_degrades "Security".data noHeadingText.data "a.py".data (by decide)⟩

/-- C5: a failed completion call yields a result with hasIssues false,
severity "none" and the error text in the dedicated error field — the
failure is a value, not an exception — and an orchestrator run whose fetch
succeeded reports status "success" whatever the per-agent outcomes,
including when every agent call fails. -/
theorem task_failure_isolated (agentType : List Char) (fd : FileData) (e : List Char)
    (hp : hasPatch fd = true)
    (prFiles : List FileData) (llm : List Char → List Char → LLMOutcome) :
    (analyze agentType fd (.err e)).hasIssues = false ∧
    (analyze agentType fd (.err e)).severity = "none".data ∧
    (analyze agentType fd (.err e)).error = some e ∧
    (reviewPr prFiles llm).status = "success".data := by
  refine ⟨?_, ?_, ?_, ?_⟩
  · simp [analyze, hp, errorResult]
  · simp [analyze, hp, errorResult]
  · simp [analyze, hp, errorResult]
  · simp only [reviewPr]
    split
    · rfl
    · rfl

/-- Witness for C5: a file with a patch whose every agent call times out. -/
theorem task_failure_isolated_witness :
    hasPatch fdW = true ∧
    (analyze "Security".data fdW (.err "Request timed out".data)).hasIssues = false ∧
    (analyze "Security".data fdW (.err "Request timed out".data)).error =
      some "Request timed out".data ∧
    (reviewPr [fdW] llmAllFail).status = "success".data :=
  ⟨rfl,
   (task_failure_isolated "Security".data fdW "Request timed out".data rfl [fdW] llmAllFail).1,
   (task_failure_isolated "Security".data fdW "Request timed out".data rfl [fdW] llmAllFail).2.2.1,
   (task_failure_isolated "Security".data fdW "Request timed out".data rfl [fdW] llmAllFail).2.2.2⟩

/-- C7: the skip policy excludes `package-lock.json` under any ordering of
the deny-lists (the extension set is a Python set with arbitrary iteration
order), excludes `app.min.js` through the `.min.js` substring pattern even
though `.js` itself is not a denied extension, is insensitive to the case
of the file path, and is applied to every file before agents are
scheduled (`reviewPr` filters with it). -/
theorem skip_policy_exclusions :
    (∀ exts pats : List (List Char), exts.Perm skipExtensions → pats.Perm skipPatterns →
      shouldSkipFileWith exts pats "package-lock.json".data = true ∧
      shouldSkipFileWith exts pats "app.min.js".data = true) ∧
    shouldSkipFile "PACKAGE-LOCK.JSON".data = true ∧
    shouldSkipFile "App.Min.JS".data = true ∧
    ".js".data ∉ skipExtensions ∧
    (∀ f g : List Char, toLowerL f = toLowerL g → shouldSkipFile f = shouldSkipFile g) := by
  refine ⟨?_, rfl, rfl, by decide, ?_⟩
  · intro exts pats hpe hpp
    constructor
    · have hm : ".json".data ∈ exts := hpe.mem_iff.mpr (by decide)
      simp only [shouldSkipFileWith, Bool.or_eq_true, List.any_eq_true]
      exact Or.inl ⟨".json".data, hm, by decide⟩
    · have hm : ".min.js".data ∈ pats := hpp.mem_iff.mpr (by decide)
      simp only [shouldSkipFileWith, Bool.or_eq_true, List.any_eq_true]
      exact Or.inr ⟨".min.js".data, hm, by decide⟩
  · intro f g hfg
    simp [shouldSkipFile, shouldSkipFileWith, hfg]

/-- Witness for C7 at the source's own deny-list ordering. -/
theorem skip_policy_exclusions_witness :
    shouldSkipFileWith skipExtensions skipPatterns "package-lock.json".data = true ∧
    shouldSkipFileWith skipExtensions skipPatterns "app.min.js".data = true :=
  ⟨(skip_policy_exclusions.1 skipExtensions skipPatterns (List.Perm.refl _) (List.Perm.refl _)).1,
   (skip_policy_exclusions.1 skipExtensions skipPatterns (List.Perm.refl _) (List.Perm.refl _)).2⟩

/-- The classifier loop as a nested conditional over the four keyword
sets, in scan order. -/
theorem classifySeverity_eq (text : List Char) :
    classifySeverity text =
      (if criticalKeywords.any (fun kw => containsSub (toLowerL text) kw) then "critical".data
       else if highKeywords.any (fun kw => containsSub (toLowerL text) kw) then "high".data
       else if mediumKeywords.any (fun kw => containsSub (toLowerL text) kw) then "medium".data
       else if lowKeywords.any (fun kw => containsSub (toLowerL text) kw) then "low".data
       else "info".data) := by
  simp only [classifySeverity, severityKeywords, List.find?]
  by_cases h1 : (criticalKeywords.any fun kw => containsSub (toLowerL text) kw) = true <;>
  by_cases h2 : (highKeywords.any fun kw => containsSub (toLowerL text) kw) = true <;>
  by_cases h3 : (mediumKeywords.any fun kw => containsSub (toLowerL text) kw) = true <;>
  by_cases h4 : (lowKeywords.any fun kw => containsSub (toLowerL text) kw) = true <;>
  simp [h1, h2, h3, h4]

/-- The per-issue aggregation as a nested conditional over the five
vocabulary words, in scan order. -/
theorem determineSeverity_eq (issues : List Issue) (hne : issues ≠ []) :
    determineSeverity issues =
      (if issues.any (fun i => i.severity = "CRITICAL".data) then "critical".data
       else if issues.any (fun i => i.severity = "HIGH".data) then "high".data
       else if issues.any (fun i => i.severity = "MEDIUM".data) then "medium".data
       else if issues.any (fun i => i.severity = "LOW".data) then "low".data
       else if issues.any (fun i => i.severity = "INFO".data) then "info".data
       else "low".data) := by
  simp only [determineSeverity, severityOrder, List.find?, if_neg hne]
  by_cases c1 : (issues.any fun i => i.severity = "CRITICAL".data) = true <;>
  by_cases c2 : (issues.any fun i => i.severity = "HIGH".data) = true <;>
  by_cases c3 : (issues.any fun i => i.severity = "MEDIUM".data) = true <;>
  by_cases c4 : (issues.any fun i => i.severity = "LOW".data) = true <;>
  by_cases c5 : (issues.any fun i => i.severity = "INFO".data) = true <;>
  simp [c1, c2, c3, c4, c5] <;> decide



/-- Any severity one of whose keywords occurs in the text ranks at most
as high as the classifier result. -/
theorem classify_ge_of_match (text s : List Char) (kws : List (List Char))
    (hA : (s, kws) ∈ severityKeywords)
    (hkw : kws.any (fun kw => containsSub (toLowerL text) kw) = true) :
    sevRank s ≤ sevRank (classifySeverity text) := by
  rw [classifySeverity_eq]
  simp only [severityKeywords, List.mem_cons, List.not_mem_nil, or_false,
    Prod.mk.injEq] at hA
  rcases hA with ⟨rfl, rfl⟩ | ⟨rfl, rfl⟩ | ⟨rfl, rfl⟩ | ⟨rfl, rfl⟩
  · simp [hkw]
  · by_cases c1 : (criticalKeywords.any fun kw => containsSub (toLowerL text) kw) = true
    · simp [c1]; decide
    · simp [c1, hkw]
  · by_cases c1 : (criticalKeywords.any fun kw => containsSub (toLowerL text) kw) = true
    · simp [c1]; decide
    · by_cases c2 : (highKeywords.any fun kw => containsSub (toLowerL text) kw) = true
      · simp [c1, c2]; decide
      · simp [c1, c2, hkw]
  · by_cases c1 : (criticalKeywords.any fun kw => containsSub (toLowerL text) kw) = true
    · simp [c1]; decide
    · by_cases c2 : (highKeywords.any fun kw => containsSub (toLowerL text) kw) = true
      · simp [c1, c2]; decide
      · by_cases c3 : (mediumKeywords.any fun kw => containsSub (toLowerL text) kw) = true
        · simp [c1, c2, c3]; decide
        · simp [c1, c2, c3, hkw]

/-- When some keyword occurs, the classifier returns a severity of the
table one of whose keywords occurs. -/
theorem classify_matches (text s : List Char) (kws : List (List Char))
    (hA : (s, kws) ∈ severityKeywords)
    (hkw : kws.any (fun kw => containsSub (toLowerL text) kw) = true) :
    ∃ p ∈ severityKeywords, p.1 = classifySeverity text ∧
      p.2.any (fun kw => containsSub (toLowerL text) kw) = true := by
  rw [classifySeverity_eq]
  by_cases c1 : (criticalKeywords.any fun kw => containsSub (toLowerL text) kw) = true
  · exact ⟨("critical".data, criticalKeywords), by simp [severityKeywords], by simp [c1], c1⟩
  · by_cases c2 : (highKeywords.any fun kw => containsSub (toLowerL text) kw) = true
    · exact ⟨("high".data, highKeywords), by simp [severityKeywords], by simp [c1, c2], c2⟩
    · by_cases c3 : (mediumKeywords.any fun kw => containsSub (toLowerL text) kw) = true
      · exact ⟨("medium".data, mediumKeywords), by simp [severityKeywords], by simp [c1, c2, c3], c3⟩
      · by_cases c4 : (lowKeywords.any fun kw => containsSub (toLowerL text) kw) = true
        · exact ⟨("low".data, lowKeywords), by simp [severityKeywords], by simp [c1, c2, c3, c4], c4⟩
        · exfalso
          simp only [severityKeywords, List.mem_cons, List.not_mem_nil, or_false,
            Prod.mk.injEq] at hA
          rcases hA with ⟨rfl, rfl⟩ | ⟨rfl, rfl⟩ | ⟨rfl, rfl⟩ | ⟨rfl, rfl⟩
          · exact c1 hkw
          · exact c2 hkw
          · exact c3 hkw
          · exact c4 hkw

/-- When no keyword of any severity occurs, the classifier returns
"info". -/
theorem classify_info_of_no_match (otherText : List Char)
    (hno : ∀ p ∈ severityKeywords, p.2.any (fun kw => containsSub (toLowerL otherText) kw) = false) :
    classifySeverity otherText = "info".data := by
  have n1 := hno ("critical".data, criticalKeywords) (by simp [severityKeywords])
  have n2 := hno ("high".data, highKeywords) (by simp [severityKeywords])
  have n3 := hno ("medium".data, mediumKeywords) (by simp [severityKeywords])
  have n4 := hno ("low".data, lowKeywords) (by simp [severityKeywords])
  simp only at n1 n2 n3 n4
  rw [classifySeverity_eq]
  simp [n1, n2, n3, n4]



/-- The per-issue aggregation returns the lowercased severity of some
issue, and no issue outranks it, for issue lists whose severities come
from the extraction vocabulary. -/
theorem determineSeverity_picks_max (issues : List Issue) (hne : issues ≠ [])
    (hv : ∀ i ∈ issues, i.severity ∈ severityOrder) :
    (∀ i ∈ issues, sevRank (toLowerL i.severity) ≤ sevRank (determineSeverity issues)) ∧
    (∃ i ∈ issues, toLowerL i.severity = determineSeverity issues) := by
  rw [determineSeverity_eq issues hne]
  constructor
  · intro i hi
    have hsv := hv i hi
    simp only [severityOrder, List.mem_cons, List.not_mem_nil, or_false] at hsv
    rcases hsv with hs | hs | hs | hs | hs
    · have d1 : (issues.any fun j => j.severity = "CRITICAL".data) = true :=
        List.any_eq_true.mpr ⟨i, hi, by simp [hs]⟩
      rw [hs]; simp [d1]; decide
    · have d2 : (issues.any fun j => j.severity = "HIGH".data) = true :=
        List.any_eq_true.mpr ⟨i, hi, by simp [hs]⟩
      rw [hs]
      by_cases c1 : (issues.any fun j => j.severity = "CRITICAL".data) = true
      · simp [c1]; decide
      · simp [c1, d2]; decide
    · have d3 : (issues.any fun j => j.severity = "MEDIUM".data) = true :=
        List.any_eq_true.mpr ⟨i, hi, by simp [hs]⟩
      rw [hs]
      by_cases c1 : (issues.any fun j => j.severity = "CRITICAL".data) = true
      · simp [c1]; decide
      · by_cases c2 : (issues.any fun j => j.severity = "HIGH".data) = true
        · simp [c1, c2]; decide
        · simp [c1, c2, d3]; decide
    · have d4 : (issues.any fun j => j.severity = "LOW".data) = true :=
        List.any_eq_true.mpr ⟨i, hi, by simp [hs]⟩
      rw [hs]
      by_cases c1 : (issues.any fun j => j.severity = "CRITICAL".data) = true
      · simp [c1]; decide
      · by_cases c2 : (issues.any fun j => j.severity = "HIGH".data) = true
        · simp [c1, c2]; decide
        · by_cases c3 : (issues.any fun j => j.severity = "MEDIUM".data) = true
          · simp [c1, c2, c3]; decide
          · simp [c1, c2, c3, d4]; decide
    · have d5 : (issues.any fun j => j.severity = "INFO".data) = true :=
        List.any_eq_true.mpr ⟨i, hi, by simp [hs]⟩
      rw [hs]
      by_cases c1 : (issues.any fun j => j.severity = "CRITICAL".data) = true
      · simp [c1]; decide
      · by_cases c2 : (issues.any fun j => j.severity = "HIGH".data) = true
        · simp [c1, c2]; decide
        · by_cases c3 : (issues.any fun j => j.severity = "MEDIUM".data) = true
          · simp [c1, c2, c3]; decide
          · by_cases c4 : (issues.any fun j => j.severity = "LOW".data) = true
            · simp [c1, c2, c3, c4]; decide
            · simp [c1, c2, c3, c4, d5]; decide
  · by_cases c1 : (issues.any fun j => j.severity = "CRITICAL".data) = true
    · obtain ⟨i, hi, hs⟩ := List.any_eq_true.mp c1
      simp only [decide_eq_true_eq] at hs
      exact ⟨i, hi, by rw [hs]; simp [c1]; decide⟩
    · by_cases c2 : (issues.any fun j => j.severity = "HIGH".data) = true
      · obtain ⟨i, hi, hs⟩ := List.any_eq_true.mp c2
        simp only [decide_eq_true_eq] at hs
        exact ⟨i, hi, by rw [hs]; simp [c1, c2]; decide⟩
      · by_cases c3 : (issues.any fun j => j.severity = "MEDIUM".data) = true
        · obtain ⟨i, hi, hs⟩ := List.any_eq_true.mp c3
          simp only [decide_eq_true_eq] at hs
          exact ⟨i, hi, by rw [hs]; simp [c1, c2, c3]; decide⟩
        · by_cases c4 : (issues.any fun j => j.severity = "LOW".data) = true
          · obtain ⟨i, hi, hs⟩ := List.any_eq_true.mp c4
            simp only [decide_eq_true_eq] at hs
            exact ⟨i, hi, by rw [hs]; simp [c1, c2, c3, c4]; decide⟩
          · by_cases c5 : (issues.any fun j => j.severity = "INFO".data) = true
            · obtain ⟨i, hi, hs⟩ := List.any_eq_true.mp c5
              simp only [decide_eq_true_eq] at hs
              exact ⟨i, hi, by rw [hs]; simp [c1, c2, c3, c4, c5]; decide⟩
            · exfalso
              cases issues with
              | nil => exact hne rfl
              | cons i0 rest =>
                have hsv := hv i0 (List.mem_cons_self i0 rest)
                simp only [severityOrder, List.mem_cons, List.not_mem_nil, or_false] at hsv
                rcases hsv with hs | hs | hs | hs | hs
                · exact c1 (List.any_eq_true.mpr ⟨i0, List.mem_cons_self i0 rest, by simp [hs]⟩)
                · exact c2 (List.any_eq_true.mpr ⟨i0, List.mem_cons_self i0 rest, by simp [hs]⟩)
                · exact c3 (List.any_eq_true.mpr ⟨i0, List.mem_cons_self i0 rest, by simp [hs]⟩)
                · exact c4 (List.any_eq_true.mpr ⟨i0, List.mem_cons_self i0 rest, by simp [hs]⟩)
                · exact c5 (List.any_eq_true.mpr ⟨i0, List.mem_cons_self i0 rest, by simp [hs]⟩)

/-- C6: severity resolution obeys the total order critical > high >
medium > low > info.  The whole-text classifier returns the
highest-ranked severity one of whose keywords occurs ("info" when none
occurs), and the per-issue aggregation returns the highest-ranked
severity present among the issues, never a lower one. -/
theorem severity_resolution_highest
    (text otherText s : List Char) (kws : List (List Char)) (issues : List Issue)
    (hA : (s, kws) ∈ severityKeywords)
    (hkw : kws.any (fun kw => containsSub (toLowerL text) kw) = true)
    (hno : ∀ p ∈ severityKeywords, p.2.any (fun kw => containsSub (toLowerL otherText) kw) = false)
    (hne : issues ≠ [])
    (hv : ∀ i ∈ issues, i.severity ∈ severityOrder) :
    sevRank s ≤ sevRank (classifySeverity text) ∧
    (∃ p ∈ severityKeywords, p.1 = classifySeverity text ∧
      p.2.any (fun kw => containsSub (toLowerL text) kw) = true) ∧
    classifySeverity otherText = "info".data ∧
    (∀ i ∈ issues, sevRank (toLowerL i.severity) ≤ sevRank (determineSeverity issues)) ∧
    (∃ i ∈ issues, toLowerL i.severity = determineSeverity issues) :=
  ⟨classify_ge_of_match text s kws hA hkw,
   classify_matches text s kws hA hkw,
   classify_info_of_no_match otherText hno,
   (determineSeverity_picks_max issues hne hv).1,
   (determineSeverity_picks_max issues hne hv).2⟩

/-- Witness for C6: a text holding a high and a low keyword classifies at
rank at least high, a keyword-free text classifies as "info", and in a
LOW/HIGH/MEDIUM issue list the HIGH issue does not outrank the
aggregate. -/
theorem severity_resolution_highest_witness :
    sevRank "high".data ≤ sevRank (classifySeverity mixedKeywordText.data) ∧
    classifySeverity cleanText.data = "info".data ∧
    sevRank (toLowerL issueHigh.severity) ≤ sevRank (determineSeverity mixedIssues) :=
  ⟨(severity_resolution_highest mixedKeywordText.data cleanText.data "high".data
      highKeywords mixedIssues (by decide) (by decide) (by decide) (by decide) (by decide)).1,
   (severity_resolution_highest mixedKeywordText.data cleanText.data "high".data
      highKeywords mixedIssues (by decide) (by decide) (by decide) (by decide) (by decide)).2.2.1,
   (severity_resolution_highest mixedKeywordText.data cleanText.data "high".data
      highKeywords mixedIssues (by decide) (by decide) (by decide) (by decide)
      (by decide)).2.2.2.1 issueHigh (by decide)⟩


/-- C8 counterexample: six positive observations containing a duplicate
render as the first five lines verbatim — the duplicate appears twice and
the sixth item is dropped with no statement of the omitted count — so the
positive-observations section is neither deduplicated nor
counted-truncated. -/
theorem positive_section_not_deduplicated :
    renderPositiveSection dupObservations =
      ["## Positive Observations", "",
       "Good practices identified by the review agents:", "",
       "- good naming", "- good naming", "- solid tests", "- clear docs",
       "- good structure", "", "---", ""] ∧
    dupObservations.length = 6 :=
  ⟨rfl, rfl⟩

/-- C8 amended: per result group the rendered block shows at most five
issue lines and at most three recommendation lines, and each of those two
truncations states exactly how many items were omitted (shown plus omitted
equals the total); the trailing positive-observations section is capped at
five items but is rendered verbatim — without deduplication and with a
silent truncation. -/
theorem summary_truncation_amended (issues : List Issue) (recs obs : List (List Char))
    (hi : issues ≠ []) (hr : recs ≠ []) (ho : obs ≠ []) :
    (renderIssuesBlock issues).length =
      3 + min 5 issues.length + (if issues.length > 5 then 1 else 0) ∧
    (issues.length > 5 →
      ("- ...and " ++ toString (issues.length - 5) ++ " more") ∈ renderIssuesBlock issues) ∧
    min 5 issues.length + (issues.length - 5) = issues.length ∧
    (renderRecsBlock recs).length =
      3 + min 3 recs.length + (if recs.length > 3 then 1 else 0) ∧
    (recs.length > 3 →
      ("- ...and " ++ toString (recs.length - 3) ++ " more") ∈ renderRecsBlock recs) ∧
    min 3 recs.length + (recs.length - 3) = recs.length ∧
    renderPositiveSection obs =
      ["## Positive Observations", "",
       "Good practices identified by the review agents:", ""]
      ++ (obs.take 5).map (fun o => "- " ++ String.mk o) ++ ["", "---", ""] := by
  refine ⟨?_, ?_, by omega, ?_, ?_, by omega, by simp [renderPositiveSection, ho]⟩
  · simp only [renderIssuesBlock, if_neg hi]
    by_cases h5 : issues.length > 5
    · simp [h5, List.length_append, List.length_take]
      omega
    · simp [h5, List.length_append, List.length_take]
      omega
  · intro h5
    simp only [renderIssuesBlock, if_neg hi, if_pos h5]
    simp
  · simp only [renderRecsBlock, if_neg hr]
    by_cases h3 : recs.length > 3
    · simp [h3, List.length_append, List.length_take]
      omega
    · simp [h3, List.length_append, List.length_take]
      omega
  · intro h3
    simp only [renderRecsBlock, if_neg hr, if_pos h3]
    simp

/-- Witness for C8 at six issues and four recommendations. -/
theorem summary_truncation_amended_witness :
    (renderIssuesBlock sixIssues).length =
      3 + min 5 sixIssues.length + (if sixIssues.length > 5 then 1 else 0) ∧
    ("- ...and " ++ toString (sixIssues.length - 5) ++ " more") ∈ renderIssuesBlock sixIssues ∧
    ("- ...and " ++ toString (fourRecs.length - 3) ++ " more") ∈ renderRecsBlock fourRecs :=
  ⟨(summary_truncation_amended sixIssues fourRecs dupObservations
      (by decide) (by decide) (by decide)).1,
   (summary_truncation_amended sixIssues fourRecs dupObservations
      (by decide) (by decide) (by decide)).2.1 (by decide),
   (summary_truncation_amended sixIssues fourRecs dupObservations
      (by decide) (by decide) (by decide)).2.2.2.2.1 (by decide)⟩

end Keeto
